import Mathlib

/-!
# Verification of the `async-shell` library

Shallow embedding of `src/async_shell/__init__.py` (and `constants.py`).

Modelling conventions:
* Byte strings are `List Nat` (one entry per byte).
* Text decoding (`bytes.decode(encoding)`) is represented by an abstract
  decoder function `dec : List Nat → String` passed as a parameter: the
  codec table is external library code, and no property here depends on
  the concrete byte-to-character mapping.
* The operating system is modelled by a `World` record that fixes, for one
  process spawn, the pid, the spawn-time clock reading, the exit code and
  the bytes the process writes to its two output pipes.  `time.perf_counter`
  readings are natural-number clock ticks.
* Every stateful method returns the updated handle state together with a
  trace of the externally visible process effects it performed (spawn,
  kill, communicate, stream-transport close).  Log calls (`self.logger.*`)
  are pure observability and are not modelled as effects.
* Exceptions are modelled with `Except`: `ShellError` is the only
  exception the library itself raises.
* The host is modelled as POSIX (`IS_WIN32 = false`), matching
  `constants.py` evaluated off Windows; `os.linesep` is `"\n"`.
-/

/-- `constants.py`: `IS_WIN32 = os.name == "nt"`, modelled on a POSIX host. -/
def IS_WIN32 : Bool := false

/-- `Shell._DEFAULT_ENCODING: "cp866" if IS_WIN32 else "utf-8"`. -/
def DEFAULT_ENCODING : String := if IS_WIN32 then "cp866" else "utf-8"

/-- `Shell._BYTES_LINESEP = os.linesep.encode()`: `"\r\n"` on Windows,
`"\n"` elsewhere, as a byte list. -/
def BYTES_LINESEP : List Nat := if IS_WIN32 then [13, 10] else [10]

/-- `ShellResult` dataclass: stdout, stderr, exit code and elapsed time.
`time` is an integer tick difference (the Python value is a float; no claim
depends on fractional time). -/
structure ShellResult where
  stdout : String
  stderr : String
  code : Int
  time : Int
deriving DecidableEq, Repr

/-- `ShellResult.__bool__(self) = bool(self.code)`. -/
def ShellResult.toBool (r : ShellResult) : Bool := r.code != 0

/-- `ShellError(result)`: exception raised by `ShellResult.validate` on a
non-zero exit code.  It carries the triggering result; the rendered message
(`Subprocess failed with code ...` plus indented stdout/stderr) is derived
string formatting that no verified property inspects, so it is not
modelled. -/
structure ShellError where
  result : ShellResult
deriving DecidableEq, Repr

/-- `ShellResult.validate`: `if self.code: raise ShellError(self); return self`. -/
def ShellResult.validate (r : ShellResult) : Except ShellError ShellResult :=
  if r.code ≠ 0 then .error ⟨r⟩ else .ok r

/-- State of one spawned OS process as the handle sees it.  `exitCode` is the
code the process reports when it is (or has been) waited on; `hasExited`
tells whether the exit has already been observed (`returncode is not None`).
`stdoutBytes`/`stderrBytes` are the full pipe contents delivered by
`communicate()`; `stdoutChunks`/`stderrChunks` are the same data as the
line-chunk sequence the `StreamReader` iterator delivers. -/
structure Process where
  pid : Int
  exitCode : Int
  hasExited : Bool
  stdoutBytes : List Nat
  stderrBytes : List Nat
  stdoutChunks : List (List Nat)
  stderrChunks : List (List Nat)
deriving DecidableEq, Repr

/-- `Process.returncode`: `None` while running, the exit code afterwards. -/
def Process.returncode (p : Process) : Option Int :=
  if p.hasExited then some p.exitCode else none

/-- One OS-level behaviour for a process spawn: the pid the OS assigns, the
`time.perf_counter()` reading at spawn, the eventual exit code and the bytes
written to each pipe. -/
structure World where
  spawnPid : Int
  spawnTime : Nat
  procExit : Int
  procStdout : List Nat
  procStderr : List Nat
  stdoutChunks : List (List Nat)
  stderrChunks : List (List Nat)
deriving DecidableEq, Repr

/-- Externally visible process effects of the library's operations. -/
inductive Effect where
  | spawn (command : String)
  | kill (pid : Int)
  | communicate (pid : Int)
  | closeStream (pid : Int) (stream : String)
deriving DecidableEq, Repr

/-- The `Shell` handle state after `__init__`/mutation: mirrors the fields
`_command`, `_encoding`, `_env`, `_cwd`, `_proc`, `_start_time`,
`_post_validate`, `_was_stopped`, `_was_finalized`. -/
structure Shell where
  command : String
  encoding : String
  env : Option (List (String × String))
  cwd : Option String
  proc : Option Process
  startTime : Option Nat
  postValidate : Bool
  wasStopped : Bool
  wasFinalized : Bool
deriving DecidableEq, Repr

/-- `Shell.__init__`: records configuration, spawns nothing. -/
def Shell.init (command : String) (encoding : Option String)
    (environment : Option (List (String × String))) (cwd : Option String) : Shell :=
  { command := command
    encoding := encoding.getD DEFAULT_ENCODING
    env := environment
    cwd := cwd
    proc := none
    startTime := none
    postValidate := false
    wasStopped := false
    wasFinalized := false }

/-- `Shell.MISSING_PROCESS_PID = -1`. -/
def Shell.MISSING_PROCESS_PID : Int := -1

/-- `Shell.was_stopped` property. -/
def Shell.was_stopped (s : Shell) : Bool := s.wasStopped

/-- `Shell.pid` property: `MISSING_PROCESS_PID if self._proc is None else
self._proc.pid`. -/
def Shell.pid (s : Shell) : Int :=
  match s.proc with
  | none => Shell.MISSING_PROCESS_PID
  | some p => p.pid

/-- `Shell.validate`: sets `_post_validate = True` and returns self. -/
def Shell.validate (s : Shell) : Shell := { s with postValidate := true }

/-- `Shell._get_proc`: if no process exists, records `_start_time` and spawns
via `create_subprocess_shell` (stdout/stderr piped, stdin not connected);
otherwise returns the existing process. -/
def Shell.getProc (w : World) (s : Shell) : Shell × Process × List Effect :=
  match s.proc with
  | some p => (s, p, [])
  | none =>
    let p : Process :=
      { pid := w.spawnPid
        exitCode := w.procExit
        hasExited := false
        stdoutBytes := w.procStdout
        stderrBytes := w.procStderr
        stdoutChunks := w.stdoutChunks
        stderrChunks := w.stderrChunks }
    ({ s with proc := some p, startTime := some w.spawnTime }, p, [.spawn s.command])

/-- `bytes.rstrip(sepBytes)`: removes every trailing byte that occurs in
`sepBytes` (Python strips by character set). -/
def rstripBytes (sepBytes : List Nat) (chunk : List Nat) : List Nat :=
  (chunk.reverse.dropWhile (fun b => sepBytes.contains b)).reverse

/-- `Shell.read_stdout(strip_linesep)`: triggers the lazy spawn, then yields
each stdout line chunk, rstripping the platform line separator when
`strip_linesep` is true, decoded with the configured encoding (`dec`). -/
def Shell.readStdout (dec : List Nat → String) (w : World) (stripLinesep : Bool)
    (s : Shell) : Shell × List String × List Effect :=
  let (s1, p, eff) := s.getProc w
  (s1,
   p.stdoutChunks.map (fun chunk =>
     dec (if stripLinesep then rstripBytes BYTES_LINESEP chunk else chunk)),
   eff)

/-- `Shell.read_stderr(strip_linesep)`: same as `read_stdout`, for stderr. -/
def Shell.readStderr (dec : List Nat → String) (w : World) (stripLinesep : Bool)
    (s : Shell) : Shell × List String × List Effect :=
  let (s1, p, eff) := s.getProc w
  (s1,
   p.stderrChunks.map (fun chunk =>
     dec (if stripLinesep then rstripBytes BYTES_LINESEP chunk else chunk)),
   eff)

/-- `Shell._finalize`: no-op once `_was_finalized`; warning-only no-op when
never spawned; otherwise kills a still-running process (setting
`_was_stopped`), drains communication, closes the stdout/stderr stream
transports (stdin is `None`, hence skipped) and sets `_was_finalized`. -/
def Shell.finalize (s : Shell) : Shell × List Effect :=
  if s.wasFinalized then (s, [])
  else
    match s.proc with
    | none => (s, [])
    | some p =>
      if p.hasExited then
        ({ s with proc := some { p with hasExited := true }, wasFinalized := true },
         [.communicate p.pid, .closeStream p.pid "stdout", .closeStream p.pid "stderr"])
      else
        ({ s with proc := some { p with hasExited := true },
                  wasStopped := true, wasFinalized := true },
         [.kill p.pid, .communicate p.pid,
          .closeStream p.pid "stdout", .closeStream p.pid "stderr"])

/-- `Shell._run`: gets (spawning if needed) the process, `communicate()`s to
drain both pipes and wait for exit, builds the `ShellResult` (decoding with
the configured encoding, `time = now - _start_time`), and applies
`result.validate()` when `_post_validate` is set. -/
def Shell.run (dec : List Nat → String) (now : Nat) (w : World) (s : Shell) :
    Shell × Except ShellError ShellResult × List Effect :=
  let (s1, p, eff) := s.getProc w
  let s2 := { s1 with proc := some { p with hasExited := true } }
  let result : ShellResult :=
    { stdout := dec p.stdoutBytes
      stderr := dec p.stderrBytes
      code := p.exitCode
      time := (now : Int) - ((s1.startTime.getD 0 : Nat) : Int) }
  (s2, if s2.postValidate then result.validate else .ok result,
   eff ++ [.communicate p.pid])

/-- `Shell._await` (the body of `__await__`): `_run`, with `_finalize`
guaranteed afterwards by the `finally` block; an exception from `_run`
still propagates. -/
def Shell.awaitResult (dec : List Nat → String) (now : Nat) (w : World) (s : Shell) :
    Shell × Except ShellError ShellResult × List Effect :=
  let (s1, res, e1) := s.run dec now w
  let (s2, e2) := s1.finalize
  (s2, res, e1 ++ e2)

/-- `Shell.__aenter__`: triggers the lazy spawn and returns the handle. -/
def Shell.aenter (w : World) (s : Shell) : Shell × List Effect :=
  let (s1, _p, eff) := s.getProc w
  (s1, eff)

/-- `Shell.__aexit__(exc_type, ...)`: finalizes, then returns
`exc_type is None` (the context-manager "did I suppress" boolean). -/
def Shell.aexit (s : Shell) (excType : Option String) : Shell × Bool × List Effect :=
  let (s1, eff) := s.finalize
  (s1, excType.isNone, eff)

/-- `Shell.poll`: `self._proc is not None and self._proc.returncode is not None`. -/
def Shell.poll (s : Shell) : Bool :=
  match s.proc with
  | none => false
  | some p => p.returncode.isSome

/-- `check_output(command, ...)`: constructs a handle, enters the scoped
lifecycle (spawning), marks it for validation, awaits it, exits the scope
(finalizing; an active `ShellError` is not suppressed), and returns the
result's stdout. -/
def check_output (dec : List Nat → String) (now : Nat) (w : World) (command : String)
    (encoding : Option String) (environment : Option (List (String × String)))
    (cwd : Option String) : Except ShellError String × List Effect :=
  let s0 := Shell.init command encoding environment cwd
  let (s1, e1) := s0.aenter w
  let s2 := s1.validate
  let (s3, res, e2) := s2.awaitResult dec now w
  let exc : Option String := match res with
    | .ok _ => none
    | .error _ => some "ShellError"
  let (_s4, _suppressed, e3) := s3.aexit exc
  (res.map (fun r => r.stdout), e1 ++ e2 ++ e3)

/-- Usage errors of pipeline composition. -/
inductive CombineError where
  | alreadyStarted
  | encodingMismatch
deriving DecidableEq, Repr

/-- Modelled from the spec: the pipeline composition operator
(`combine(self, other)` / pipe operator) is absent from the sources under
`src/` ("present only in the simpler variants").  Per the spec it fails with
a "process already started" error when `startTime` is set on either side,
with an encoding-mismatch error when the encodings differ, and otherwise
builds a fresh handle whose command is `"<self.command> | <other.command>"`
and whose `validateOnCompletion` is set when either input requested it.
The spec fixes neither the environment/cwd of the combined handle nor the
check order for simultaneous violations; the started check is made first. -/
def Shell.combine (a b : Shell) : Except CombineError Shell :=
  if a.startTime.isSome || b.startTime.isSome then .error .alreadyStarted
  else if a.encoding ≠ b.encoding then .error .encodingMismatch
  else .ok
    { command := a.command ++ " | " ++ b.command
      encoding := a.encoding
      env := a.env
      cwd := a.cwd
      proc := none
      startTime := none
      postValidate := a.postValidate || b.postValidate
      wasStopped := false
      wasFinalized := false }

/-- The handle operations that touch the underlying process, for the
at-most-one-spawn invariant.  `opAwait` carries the `perf_counter` reading
at completion; the read operations carry their strip flag. -/
inductive Op where
  | opAwait (now : Nat)
  | opReadStdout (strip : Bool)
  | opReadStderr (strip : Bool)
  | opEnter
  | opValidate
  | opFinalize
  | opPoll
deriving DecidableEq, Repr

/-- One operation applied to a handle: the new handle state and the process
effects performed.  Each step carries its own `World` (the OS behaviour the
spawn would see if it happens at that step). -/
def step (dec : List Nat → String) (w : World) (s : Shell) : Op → Shell × List Effect
  | .opAwait now =>
    let (s1, _res, eff) := s.awaitResult dec now w
    (s1, eff)
  | .opReadStdout strip =>
    let (s1, _out, eff) := s.readStdout dec w strip
    (s1, eff)
  | .opReadStderr strip =>
    let (s1, _out, eff) := s.readStderr dec w strip
    (s1, eff)
  | .opEnter => s.aenter w
  | .opValidate => (s.validate, [])
  | .opFinalize => s.finalize
  | .opPoll => (s, [])

/-- Run a sequence of operations, concatenating the effect traces. -/
def runOps (dec : List Nat → String) : List (World × Op) → Shell → Shell × List Effect
  | [], s => (s, [])
  | (w, op) :: rest, s =>
    let (s1, e1) := step dec w s op
    let (s2, e2) := runOps dec rest s1
    (s2, e1 ++ e2)

/-- Is this effect a process spawn? -/
def Effect.isSpawn : Effect → Bool
  | .spawn _ => true
  | _ => false

/-- Number of process spawns in an effect trace. -/
def spawnCount (l : List Effect) : Nat := (l.filter Effect.isSpawn).length

/-- A concrete decoder for witnesses: each byte as the character of its
code point. -/
def decodeAscii (bs : List Nat) : String := String.mk (bs.map Char.ofNat)

/-- Witness world: a process that prints `hi`, exits 0, pid 42, spawned at
tick 2. -/
def wOk : World :=
  { spawnPid := 42
    spawnTime := 2
    procExit := 0
    procStdout := [104, 105]
    procStderr := []
    stdoutChunks := [[104, 105, 10]]
    stderrChunks := [] }

/-- Witness world: a process that prints `no` on stderr and exits 3. -/
def wFail : World :=
  { spawnPid := 77
    spawnTime := 5
    procExit := 3
    procStdout := []
    procStderr := [110, 111]
    stdoutChunks := []
    stderrChunks := [[110, 111, 10]] }

/-- Witness handle: freshly constructed, never spawned. -/
def sFresh : Shell := Shell.init "echo hi" none none none

/-- Claim C3: a `ShellResult`'s boolean conversion is true exactly when its
exit code is non-zero (`__bool__` returns `bool(self.code)`). -/
theorem shellResult_truthy_iff_nonzero (r : ShellResult) :
    r.toBool = true ↔ r.code ≠ 0 := by
  simp [ShellResult.toBool]

theorem shellResult_truthy_witness :
    (ShellResult.toBool { stdout := "a", stderr := "b", code := 2, time := 0 } = true
      ↔ ({ stdout := "a", stderr := "b", code := 2, time := 0 } : ShellResult).code ≠ 0) :=
  shellResult_truthy_iff_nonzero { stdout := "a", stderr := "b", code := 2, time := 0 }

/-- Claim C4: `_finalize` is idempotent — after one call, any further call
returns the state unchanged and performs no effects, whatever the process
state (never started, still running, or exited) was beforehand. -/
theorem finalize_idempotent (s : Shell) :
    (s.finalize.1).finalize = (s.finalize.1, []) := by
  unfold Shell.finalize
  by_cases hf : s.wasFinalized
  · simp [hf]
  · cases hp : s.proc with
    | none => simp [hf, hp]
    | some p => cases he : p.hasExited <;> simp [hf, hp, he]

theorem finalize_idempotent_witness :
    ((((Shell.init "sleep 60" none none none).getProc wOk).1.finalize.1).finalize
      = ((((Shell.init "sleep 60" none none none).getProc wOk).1.finalize.1), [])) :=
  finalize_idempotent ((Shell.init "sleep 60" none none none).getProc wOk).1

/-- Claim C10: `_finalize` on a handle whose process was never spawned
returns the state entirely unchanged (in particular `_was_finalized` and
`_was_stopped` keep their values) and performs no process effects. -/
theorem finalize_unstarted (s : Shell) (h : s.proc = none) :
    s.finalize = (s, []) := by
  unfold Shell.finalize
  by_cases hf : s.wasFinalized <;> simp [hf, h]

theorem finalize_unstarted_witness :
    sFresh.proc = none ∧ sFresh.finalize = (sFresh, []) :=
  ⟨rfl, finalize_unstarted sFresh rfl⟩

/-- Claim C8: `__aexit__` always invokes `_finalize` (the resulting state is
exactly the finalized state) and suppresses no active exception: it returns
true exactly when no exception is active. -/
theorem aexit_finalizes_and_suppresses_nothing (s : Shell) (excType : Option String) :
    (s.aexit excType).1 = s.finalize.1
      ∧ ((s.aexit excType).2.1 = true ↔ excType = none) := by
  constructor
  · rfl
  · simp [Shell.aexit, Option.isNone_iff_eq_none]

theorem aexit_witness :
    (sFresh.aexit (some "RuntimeError")).1 = sFresh.finalize.1
      ∧ ((sFresh.aexit (some "RuntimeError")).2.1 = true
          ↔ (some "RuntimeError" : Option String) = none) :=
  aexit_finalizes_and_suppresses_nothing sFresh (some "RuntimeError")

/-- Claim C2: awaiting a handle raises `ShellError` iff `validate()` was
called beforehand and the exit code is non-zero; any raised error carries
the full result, and in every other case the await returns the result with
the decoded stdout, decoded stderr and the exit code. -/
theorem awaitResult_validation (dec : List Nat → String) (now : Nat) (w : World) (s : Shell) :
    ((∃ e : ShellError, (s.awaitResult dec now w).2.1 = Except.error e)
        ↔ (s.postValidate = true ∧ (s.getProc w).2.1.exitCode ≠ 0))
    ∧ (∀ e : ShellError, (s.awaitResult dec now w).2.1 = Except.error e →
        e.result =
          { stdout := dec (s.getProc w).2.1.stdoutBytes
            stderr := dec (s.getProc w).2.1.stderrBytes
            code := (s.getProc w).2.1.exitCode
            time := (now : Int) - (((s.getProc w).1.startTime.getD 0 : Nat) : Int) })
    ∧ (¬(s.postValidate = true ∧ (s.getProc w).2.1.exitCode ≠ 0) →
        (s.awaitResult dec now w).2.1 = Except.ok
          { stdout := dec (s.getProc w).2.1.stdoutBytes
            stderr := dec (s.getProc w).2.1.stderrBytes
            code := (s.getProc w).2.1.exitCode
            time := (now : Int) - (((s.getProc w).1.startTime.getD 0 : Nat) : Int) }) := by
  cases hp : s.proc with
  | none =>
    by_cases hv : s.postValidate <;> by_cases hc : w.procExit = 0 <;>
      simp [Shell.awaitResult, Shell.run, Shell.getProc, hp, ShellResult.validate, hv, hc]
  | some p =>
    by_cases hv : s.postValidate <;> by_cases hc : p.exitCode = 0 <;>
      simp [Shell.awaitResult, Shell.run, Shell.getProc, hp, ShellResult.validate, hv, hc]

theorem awaitResult_validation_witness :
    ((sFresh.validate).postValidate = true
        ∧ ((sFresh.validate).getProc wFail).2.1.exitCode ≠ 0)
    ∧ (∃ e : ShellError,
        ((sFresh.validate).awaitResult decodeAscii 9 wFail).2.1 = Except.error e) :=
  ⟨⟨rfl, by decide⟩,
   (awaitResult_validation decodeAscii 9 wFail (sFresh.validate)).1.mpr ⟨rfl, by decide⟩⟩

/-- Claim C1: `check_output` returns exactly the decoded captured stdout
when the process exits 0, and propagates the `ShellError` (carrying the
full result) when the exit code is non-zero. -/
theorem check_output_spec (dec : List Nat → String) (now : Nat) (w : World) (command : String)
    (encoding : Option String) (environment : Option (List (String × String)))
    (cwd : Option String) :
    (w.procExit = 0 →
      (check_output dec now w command encoding environment cwd).1
        = Except.ok (dec w.procStdout))
    ∧ (w.procExit ≠ 0 →
      (check_output dec now w command encoding environment cwd).1
        = Except.error
            ⟨{ stdout := dec w.procStdout
               stderr := dec w.procStderr
               code := w.procExit
               time := (now : Int) - (w.spawnTime : Int) }⟩) := by
  constructor <;> intro hc <;>
    simp [check_output, Shell.init, Shell.aenter, Shell.validate, Shell.awaitResult,
      Shell.run, Shell.getProc, Shell.finalize, Shell.aexit, ShellResult.validate,
      Except.map, hc]

theorem check_output_witness :
    wOk.procExit = 0
    ∧ (check_output decodeAscii 9 wOk "echo hi" none none none).1
        = Except.ok (decodeAscii wOk.procStdout) :=
  ⟨rfl, (check_output_spec decodeAscii 9 wOk "echo hi" none none none).1 rfl⟩

/-- Claim C6: composing two never-started handles with matching encodings
yields a handle whose command is `"<self.command> | <other.command>"` and
whose validation flag is the disjunction of the inputs'; a started side
raises the already-started error, and (for unstarted sides) an encoding
mismatch raises the encoding-mismatch error. -/
theorem combine_spec (a b : Shell) :
    ((a.startTime.isSome ∨ b.startTime.isSome) →
        a.combine b = Except.error CombineError.alreadyStarted)
    ∧ ((a.startTime = none ∧ b.startTime = none ∧ a.encoding ≠ b.encoding) →
        a.combine b = Except.error CombineError.encodingMismatch)
    ∧ ((a.startTime = none ∧ b.startTime = none ∧ a.encoding = b.encoding) →
        ∃ c : Shell, a.combine b = Except.ok c
          ∧ c.command = a.command ++ " | " ++ b.command
          ∧ c.postValidate = (a.postValidate || b.postValidate)
          ∧ c.proc = none ∧ c.startTime = none) := by
  refine ⟨fun h => ?_, fun h => ?_, fun h => ?_⟩
  · rcases h with h | h <;> simp [Shell.combine, h]
  · obtain ⟨h1, h2, h3⟩ := h
    simp [Shell.combine, h1, h2, h3]
  · obtain ⟨h1, h2, h3⟩ := h
    refine ⟨Shell.mk (a.command ++ " | " ++ b.command) a.encoding a.env a.cwd none none
        (a.postValidate || b.postValidate) false false, ?_, rfl, rfl, rfl, rfl⟩
    simp [Shell.combine, h1, h2, h3]

theorem combine_witness :
    (sFresh.startTime = none
        ∧ (Shell.init "wc -l" none none none).startTime = none
        ∧ sFresh.encoding = (Shell.init "wc -l" none none none).encoding)
    ∧ ∃ c : Shell, sFresh.combine (Shell.init "wc -l" none none none) = Except.ok c
        ∧ c.command = sFresh.command ++ " | " ++ (Shell.init "wc -l" none none none).command
        ∧ c.postValidate
            = (sFresh.postValidate || (Shell.init "wc -l" none none none).postValidate)
        ∧ c.proc = none ∧ c.startTime = none :=
  ⟨⟨rfl, rfl, rfl⟩,
   (combine_spec sFresh (Shell.init "wc -l" none none none)).2.2 ⟨rfl, rfl, rfl⟩⟩

/-- Claim C9: `pid` returns the sentinel `-1` while no process has been
spawned, and the OS pid of the underlying process (positive, provided the
OS hands out positive pids) once spawned. -/
theorem pid_spec (w : World) (s : Shell) (h : 0 < w.spawnPid) :
    (s.proc = none → s.pid = Shell.MISSING_PROCESS_PID)
    ∧ (∀ p : Process, s.proc = some p → s.pid = p.pid)
    ∧ (s.proc = none →
        (s.getProc w).1.pid = w.spawnPid ∧ 0 < (s.getProc w).1.pid) := by
  refine ⟨fun hp => ?_, fun p hp => ?_, fun hp => ?_⟩
  · simp [Shell.pid, hp]
  · simp [Shell.pid, hp]
  · simp [Shell.pid, Shell.getProc, hp, h]

/-- `rstripBytes` agrees with Mathlib's `List.rdropWhile`. -/
theorem rstripBytes_eq_rdropWhile (sepBytes c : List Nat) :
    rstripBytes sepBytes c = c.rdropWhile (fun b => sepBytes.contains b) := rfl

/-- The stripped chunk followed by the removed trailing separator run is the
original chunk. -/
theorem rstripBytes_append_stripped (sepBytes c : List Nat) :
    rstripBytes sepBytes c ++ c.rtakeWhile (fun b => sepBytes.contains b) = c := by
  rw [rstripBytes_eq_rdropWhile, List.rdropWhile, List.rtakeWhile, ← List.reverse_append,
    List.takeWhile_append_dropWhile, List.reverse_reverse]

/-- A stripped chunk does not end in a separator byte. -/
theorem rstripBytes_getLast_not (sepBytes c : List Nat) :
    ∀ b : Nat, (rstripBytes sepBytes c).getLast? = some b → b ∉ sepBytes := by
  intro b hb hmem
  have hne : rstripBytes sepBytes c ≠ [] := by
    intro hnil
    rw [hnil] at hb
    simp at hb
  obtain ⟨h, hb2⟩ := List.mem_getLast?_eq_getLast (Option.mem_def.mpr hb)
  have hlast := List.rdropWhile_last_not (fun x => sepBytes.contains x) c hne
  apply hlast
  have hcb : sepBytes.contains b = true := by simpa using hmem
  rw [hb2] at hcb
  exact hcb

/-- Claim C7: the streaming readers yield, for each raw line chunk, its
decoding after rstripping the platform line-separator bytes when the strip
flag is true (the default), and its decoding unchanged when the flag is
false; rstripping removes exactly the trailing run of separator bytes. -/
theorem read_strip_spec (dec : List Nat → String) (w : World) (s : Shell) :
    ((s.readStdout dec w true).2.1
        = (s.getProc w).2.1.stdoutChunks.map (fun c => dec (rstripBytes BYTES_LINESEP c)))
    ∧ ((s.readStdout dec w false).2.1
        = (s.getProc w).2.1.stdoutChunks.map (fun c => dec c))
    ∧ ((s.readStderr dec w true).2.1
        = (s.getProc w).2.1.stderrChunks.map (fun c => dec (rstripBytes BYTES_LINESEP c)))
    ∧ ((s.readStderr dec w false).2.1
        = (s.getProc w).2.1.stderrChunks.map (fun c => dec c))
    ∧ (∀ c : List Nat,
        rstripBytes BYTES_LINESEP c ++ c.rtakeWhile (fun b => BYTES_LINESEP.contains b) = c
        ∧ (∀ b ∈ c.rtakeWhile (fun b => BYTES_LINESEP.contains b), b ∈ BYTES_LINESEP)
        ∧ ∀ b : Nat, (rstripBytes BYTES_LINESEP c).getLast? = some b
            → b ∉ BYTES_LINESEP) := by
  refine ⟨?_, ?_, ?_, ?_, fun c =>
    ⟨rstripBytes_append_stripped _ _, fun b hb => ?_, rstripBytes_getLast_not _ _⟩⟩
  · cases hp : s.proc <;> simp [Shell.readStdout, Shell.getProc, hp]
  · cases hp : s.proc <;> simp [Shell.readStdout, Shell.getProc, hp]
  · cases hp : s.proc <;> simp [Shell.readStderr, Shell.getProc, hp]
  · cases hp : s.proc <;> simp [Shell.readStderr, Shell.getProc, hp]
  · simpa using List.mem_rtakeWhile_imp hb

theorem read_strip_witness :
    (sFresh.readStdout decodeAscii wOk true).2.1
      = (sFresh.getProc wOk).2.1.stdoutChunks.map
          (fun c => decodeAscii (rstripBytes BYTES_LINESEP c)) :=
  (read_strip_spec decodeAscii wOk sFresh).1

theorem pid_witness :
    0 < wOk.spawnPid
    ∧ sFresh.pid = Shell.MISSING_PROCESS_PID
    ∧ (sFresh.getProc wOk).1.pid = wOk.spawnPid ∧ 0 < (sFresh.getProc wOk).1.pid :=
  ⟨by decide, (pid_spec wOk sFresh (by decide)).1 rfl,
   (pid_spec wOk sFresh (by decide)).2.2 rfl⟩

/-- Spawn counts add over concatenated effect traces. -/
theorem spawnCount_append (l1 l2 : List Effect) :
    spawnCount (l1 ++ l2) = spawnCount l1 + spawnCount l2 := by
  simp [spawnCount, List.filter_append]

/-- A step on a handle that already owns a process spawns nothing, keeps
owning a process, and leaves `startTime` untouched. -/
theorem step_proc_some (dec : List Nat → String) (w : World) (op : Op) (s : Shell)
    (p : Process) (h : s.proc = some p) :
    spawnCount (step dec w s op).2 = 0
    ∧ (∃ q : Process, (step dec w s op).1.proc = some q)
    ∧ (step dec w s op).1.startTime = s.startTime := by
  cases op <;>
    by_cases hf : s.wasFinalized <;>
      by_cases he : p.hasExited <;>
        simp [step, Shell.awaitResult, Shell.run, Shell.getProc, Shell.readStdout,
          Shell.readStderr, Shell.aenter, Shell.validate, Shell.finalize,
          spawnCount, Effect.isSpawn, h, hf, he]

/-- A step on a never-started handle either leaves it never-started with no
spawn, or performs exactly one spawn and stamps `startTime` with that
step's spawn-time reading. -/
theorem step_proc_none (dec : List Nat → String) (w : World) (op : Op) (s : Shell)
    (h : s.proc = none) :
    ((step dec w s op).1.proc = none ∧ spawnCount (step dec w s op).2 = 0
      ∧ (step dec w s op).1.startTime = s.startTime)
    ∨ ((∃ q : Process, (step dec w s op).1.proc = some q)
      ∧ spawnCount (step dec w s op).2 = 1
      ∧ (step dec w s op).1.startTime = some w.spawnTime) := by
  cases op with
  | opAwait now =>
    right
    by_cases hf : s.wasFinalized <;>
      simp [step, Shell.awaitResult, Shell.run, Shell.getProc, Shell.finalize,
        spawnCount, Effect.isSpawn, h, hf]
  | opReadStdout strip =>
    right
    simp [step, Shell.readStdout, Shell.getProc, spawnCount, Effect.isSpawn, h]
  | opReadStderr strip =>
    right
    simp [step, Shell.readStderr, Shell.getProc, spawnCount, Effect.isSpawn, h]
  | opEnter =>
    right
    simp [step, Shell.aenter, Shell.getProc, spawnCount, Effect.isSpawn, h]
  | opValidate =>
    left
    simp [step, Shell.validate, spawnCount, h]
  | opFinalize =>
    left
    by_cases hf : s.wasFinalized <;> simp [step, Shell.finalize, spawnCount, h, hf]
  | opPoll =>
    left
    simp [step, spawnCount, h]

/-- Once a handle owns a process, any sequence of operations spawns nothing
further and never changes `startTime`. -/
theorem runOps_proc_some (dec : List Nat → String) (l : List (World × Op)) :
    ∀ s : Shell, (∃ p : Process, s.proc = some p) →
      spawnCount (runOps dec l s).2 = 0
      ∧ (∃ q : Process, (runOps dec l s).1.proc = some q)
      ∧ (runOps dec l s).1.startTime = s.startTime := by
  induction l with
  | nil =>
    intro s hs
    exact ⟨rfl, hs, rfl⟩
  | cons hd tl ih =>
    intro s hs
    obtain ⟨w, op⟩ := hd
    obtain ⟨p, hp⟩ := hs
    obtain ⟨h1, h2, h3⟩ := step_proc_some dec w op s p hp
    obtain ⟨h4, h5, h6⟩ := ih (step dec w s op).1 h2
    refine ⟨?_, ?_, ?_⟩
    · simp [runOps, spawnCount_append, h1, h4]
    · simpa [runOps] using h5
    · simp [runOps, h6, h3]

/-- From a freshly constructed handle, any sequence of operations spawns at
most once, and `startTime` is set exactly when that single spawn happened. -/
theorem runOps_from_none (dec : List Nat → String) (l : List (World × Op)) :
    ∀ s : Shell, s.proc = none → s.startTime = none →
      spawnCount (runOps dec l s).2 ≤ 1
      ∧ ((runOps dec l s).1.startTime.isSome
          ↔ spawnCount (runOps dec l s).2 = 1) := by
  induction l with
  | nil =>
    intro s hp ht
    simp [runOps, spawnCount, ht]
  | cons hd tl ih =>
    intro s hp ht
    obtain ⟨w, op⟩ := hd
    rcases step_proc_none dec w op s hp with ⟨h1, h2, h3⟩ | ⟨h1, h2, h3⟩
    · obtain ⟨h4, h5⟩ := ih (step dec w s op).1 h1 (h3.trans ht)
      constructor
      · simp [runOps, spawnCount_append, h2, h4]
      · simpa [runOps, spawnCount_append, h2] using h5
    · obtain ⟨h4, h5, h6⟩ := runOps_proc_some dec tl (step dec w s op).1 h1
      constructor
      · simp [runOps, spawnCount_append, h2, h4]
      · simp [runOps, spawnCount_append, h2, h4, h6, h3]

/-- Claim C5: construction spawns no process (`proc` and `startTime` start
unset); across any sequence of handle operations the underlying OS process
is spawned at most once, and `startTime` ends up set exactly when that
single spawn happened. -/
theorem spawn_at_most_once (dec : List Nat → String) (l : List (World × Op))
    (command : String) (encoding : Option String)
    (environment : Option (List (String × String))) (cwd : Option String) :
    (Shell.init command encoding environment cwd).proc = none
    ∧ (Shell.init command encoding environment cwd).startTime = none
    ∧ spawnCount (runOps dec l (Shell.init command encoding environment cwd)).2 ≤ 1
    ∧ ((runOps dec l (Shell.init command encoding environment cwd)).1.startTime.isSome
        ↔ spawnCount (runOps dec l (Shell.init command encoding environment cwd)).2 = 1) := by
  obtain ⟨h1, h2⟩ :=
    runOps_from_none dec l (Shell.init command encoding environment cwd) rfl rfl
  exact ⟨rfl, rfl, h1, h2⟩

theorem spawn_at_most_once_witness :
    spawnCount (runOps decodeAscii [(wOk, Op.opEnter), (wOk, Op.opAwait 9)]
      (Shell.init "echo hi" none none none)).2 ≤ 1 :=
  (spawn_at_most_once decodeAscii [(wOk, Op.opEnter), (wOk, Op.opAwait 9)]
    "echo hi" none none none).2.2.1
